import Mathlib

/-!
Verification model of `src/services/llm_service.py` from the
restaurant-analytics-llm repository.

The Python service wires a text-generation model (Google Gemini) to a SQLite
store.  We embed its pure string-processing functions directly, and model the
two external effects by oracles:

* the generative model is an oracle `GenModel : String → Except String String`
  mapping a prompt to either a response text (`response.text`) or a raised
  exception message;
* the relational store is an oracle `DbOracle : String → Except String Table`
  mapping a SQL statement to either a materialized result table or a raised
  error message.

Connection bookkeeping for `execute_sql` (the `sqlite3.connect` / `conn.close`
pair) is made explicit as a `ConnState` threaded through the call, and
`generate_insights` additionally reports how many times it invoked the
external model, so that the spec's "no external call" claims are expressible.
Strings are manipulated through their character lists (`String.data`).
-/

/-- Characters removed by Python's `str.strip()`. -/
def pyWhitespace (c : Char) : Bool :=
  c = ' ' || c = '\t' || c = '\n' || c = '\r' || c = '\x0b' || c = '\x0c'

/-- Python `str.lstrip()` on a character list. -/
def lstrip (l : List Char) : List Char := l.dropWhile pyWhitespace

/-- Python `str.rstrip()` on a character list. -/
def rstrip (l : List Char) : List Char := (l.reverse.dropWhile pyWhitespace).reverse

/-- Python `str.strip()` on a character list: trim both ends. -/
def strip (l : List Char) : List Char := lstrip (rstrip l)

/-- Python `str.strip()` on a `String`. -/
def stripStr (s : String) : String := String.mk (strip s.data)

/-- The three-backtick fenced-code delimiter `re` looks for. -/
def fence : List Char := ['\x60', '\x60', '\x60']

/-- Model of `re.sub(r'```sql\n?', '', s)`: scan left to right, deleting each
occurrence of three backticks followed by `sql` and an optional newline. -/
def subSqlFence : List Char → List Char
  | '\x60' :: '\x60' :: '\x60' :: 's' :: 'q' :: 'l' :: '\n' :: rest => subSqlFence rest
  | '\x60' :: '\x60' :: '\x60' :: 's' :: 'q' :: 'l' :: rest => subSqlFence rest
  | c :: rest => c :: subSqlFence rest
  | [] => []

/-- Model of `re.sub(r'```\n?', '', s)`: scan left to right, deleting each
occurrence of three backticks and an optional following newline. -/
def subFence : List Char → List Char
  | '\x60' :: '\x60' :: '\x60' :: '\n' :: rest => subFence rest
  | '\x60' :: '\x60' :: '\x60' :: rest => subFence rest
  | c :: rest => c :: subFence rest
  | [] => []

/-- Model of `LLMSQLService._clean_sql_query`: remove markdown code fences,
strip surrounding whitespace, and append a semicolon when the statement does
not already end with one. -/
def clean_sql_query (sql_query : List Char) : List Char :=
  let noFences := subFence (subSqlFence sql_query)
  let stripped := strip noFences
  if stripped.getLast? = some ';' then stripped else stripped ++ [';']

/-- Splitting on newlines, as Python `str.split('\n')`: keeps empty pieces and
returns `[""]` on the empty string. `consHead` prepends a character to the
first piece. -/
def consHead (c : Char) : List (List Char) → List (List Char)
  | [] => [[c]]
  | h :: t => (c :: h) :: t

/-- Model of Python `str.split('\n')` on a character list. -/
def splitLines : List Char → List (List Char)
  | [] => [[]]
  | c :: rest => if c = '\n' then [] :: splitLines rest else consHead c (splitLines rest)

/-- A materialized query result (`pandas.DataFrame`), with every cell rendered
as text.  With textual cells, `select_dtypes(include=['number'])` in
`_prepare_results_summary` selects no columns, so the numeric-statistics block
contributes nothing to the summary. -/
structure Table where
  columns : List String
  rows : List (List String)
deriving DecidableEq, Repr

/-- Model of `pandas.DataFrame.empty`: true when either axis has length 0. -/
def Table.isEmpty (t : Table) : Bool := t.rows.isEmpty || t.columns.isEmpty

/-- Oracle for `self.model.generate_content`: maps the prompt to the response
text, or to the message of a raised exception. -/
abbrev GenModel := String → Except String String

/-- Oracle for the relational store behind `pandas.read_sql_query`: maps a
statement to a materialized table or to the message of a raised error. -/
abbrev DbOracle := String → Except String Table

/-- Connection bookkeeping for `execute_sql`: how many `sqlite3.connect`
handles are currently open. -/
structure ConnState where
  openConns : Nat
deriving DecidableEq, Repr

/-- Model of `LLMSQLService._get_schema_info`: the fixed schema description
text interpolated into the SQL prompt. -/
def schema_info : String :=
  "DATABASE SCHEMA:\n\n" ++
  "1. restaurants: Restaurant information\n" ++
  "   - id (INTEGER): Primary key\n   - name (TEXT): Restaurant name\n" ++
  "   - location (TEXT): Restaurant location\n" ++
  "   - cuisine_type (TEXT): Type of cuisine (Italian, Chinese, etc.)\n" ++
  "   - capacity (INTEGER): Seating capacity\n" ++
  "   - created_at (DATETIME): Creation timestamp\n\n" ++
  "2. menu_items: Menu items for each restaurant\n" ++
  "   - id (INTEGER): Primary key\n   - restaurant_id (INTEGER): Foreign key to restaurants\n" ++
  "   - name (TEXT): Item name\n   - category (TEXT): Food category (Appetizers, Main Course, etc.)\n" ++
  "   - price (REAL): Item price\n   - description (TEXT): Item description\n" ++
  "   - calories (INTEGER): Calorie count\n   - is_available (INTEGER): 1 if available, 0 if not\n\n" ++
  "3. customers: Customer information\n" ++
  "   - id (INTEGER): Primary key\n   - name (TEXT): Customer name\n" ++
  "   - email (TEXT): Customer email\n   - age_group (TEXT): Age range (18-25, 26-35, etc.)\n" ++
  "   - preferred_cuisine (TEXT): Preferred cuisine type\n" ++
  "   - loyalty_points (INTEGER): Loyalty program points\n" ++
  "   - registration_date (DATETIME): Registration date\n\n" ++
  "4. orders: Customer orders\n" ++
  "   - id (INTEGER): Primary key\n   - restaurant_id (INTEGER): Foreign key to restaurants\n" ++
  "   - customer_id (INTEGER): Foreign key to customers\n" ++
  "   - order_date (DATETIME): Order timestamp\n   - total_amount (REAL): Total order value\n" ++
  "   - order_type (TEXT): dine-in, takeout, or delivery\n   - status (TEXT): Order status\n" ++
  "   - payment_method (TEXT): cash, card, or digital\n" ++
  "   - table_number (INTEGER): Table number if dine-in\n\n" ++
  "5. order_items: Items in each order\n" ++
  "   - id (INTEGER): Primary key\n   - order_id (INTEGER): Foreign key to orders\n" ++
  "   - menu_item_id (INTEGER): Foreign key to menu_items\n" ++
  "   - quantity (INTEGER): Number of items\n   - unit_price (REAL): Price per unit\n" ++
  "   - total_price (REAL): Total price for this item\n\n" ++
  "6. reviews: Customer reviews\n" ++
  "   - id (INTEGER): Primary key\n   - restaurant_id (INTEGER): Foreign key to restaurants\n" ++
  "   - customer_id (INTEGER): Foreign key to customers\n" ++
  "   - rating (INTEGER): Overall rating (1-5)\n   - review_text (TEXT): Review content\n" ++
  "   - review_date (DATETIME): Review timestamp\n   - food_rating (INTEGER): Food rating (1-5)\n" ++
  "   - service_rating (INTEGER): Service rating (1-5)\n" ++
  "   - ambiance_rating (INTEGER): Ambiance rating (1-5)"

/-- Model of `LLMSQLService._create_sql_prompt`. -/
def create_sql_prompt (question : String) : String :=
  "You are an expert SQL analyst for a restaurant analytics platform. " ++
  "Convert the following natural language question into a SQL query.\n\n" ++
  schema_info ++ "\n\n" ++
  "IMPORTANT RULES:\n" ++
  "1. Generate ONLY valid SQLite syntax\n" ++
  "2. Use proper JOINs when accessing multiple tables\n" ++
  "3. Include appropriate WHERE clauses for filtering\n" ++
  "4. Use aggregate functions (COUNT, SUM, AVG) when appropriate\n" ++
  "5. Limit results to reasonable numbers (use LIMIT clause)\n" ++
  "6. Use proper date functions for time-based queries\n" ++
  "7. Return only the SQL query, no explanations\n\n" ++
  "Question: " ++ question ++ "\n\nSQL Query:"

/-- Model of `LLMSQLService.generate_sql`: prompt the model, take
`response.text.strip()`, and sanitize it with `_clean_sql_query`; a raised
exception is re-raised with an `Error generating SQL:` message. -/
def generate_sql (model : GenModel) (question : String) : Except String String :=
  match model (create_sql_prompt question) with
  | Except.ok text => Except.ok (String.mk (clean_sql_query (strip text.data)))
  | Except.error e => Except.error ("Error generating SQL: " ++ e)

/-- Model of `LLMSQLService.execute_sql`.  The Python body is
`conn = sqlite3.connect(...)`, then `pd.read_sql_query(sql_query, conn)`, then
`conn.close()` — with no `finally` block: when the store raises, the
`except` clause re-raises without ever reaching `conn.close()`, so the
connection opened at entry stays open on the error path. -/
def execute_sql (db : DbOracle) (sql_query : String) (st : ConnState) :
    Except String Table × ConnState :=
  let afterConnect : ConnState := ⟨st.openConns + 1⟩
  match db sql_query with
  | Except.ok results => (Except.ok results, ⟨afterConnect.openConns - 1⟩)
  | Except.error e => (Except.error ("Error executing SQL: " ++ e), afterConnect)

/-- Model of `LLMSQLService._prepare_results_summary` (cells are textual, so
the numeric-statistics branch selects no columns and is omitted). -/
def prepare_results_summary (results : Table) : String :=
  "Number of rows: " ++ toString results.rows.length ++ "\n" ++
  "Columns: " ++ String.intercalate ", " results.columns ++ "\n\n" ++
  "Sample data:\n" ++
  String.intercalate "\n" ((results.rows.take 5).map (String.intercalate " "))

/-- Model of the insight prompt built inside `generate_insights`. -/
def insight_prompt (question : String) (results : Table) : String :=
  "You are a restaurant business analyst. Based on the following query and results, " ++
  "provide actionable insights.\n\nOriginal Question: " ++ question ++
  "\n\nQuery Results Summary:\n" ++ prepare_results_summary results ++
  "\n\nPlease provide:\n1. Key findings from the data\n2. Business implications\n" ++
  "3. Actionable recommendations\n\nKeep the response concise and business-focused."

/-- Model of `LLMSQLService.generate_insights`.  The second component counts
how many times the external model was invoked during the call.  An empty
table short-circuits to the fixed literal before any external call; a raised
exception is swallowed and converted to a literal error string. -/
def generate_insights (model : GenModel) (question : String) (results : Table) :
    String × Nat :=
  if results.isEmpty then ("No data found for the given query.", 0)
  else
    match model (insight_prompt question results) with
    | Except.ok text => (stripStr text, 1)
    | Except.error e => ("Error generating insights: " ++ e, 1)

/-- Model of the related-questions prompt built inside `get_related_questions`. -/
def related_prompt (original_question : String) (results : Table) : String :=
  "Based on the following restaurant analytics question and its results, " ++
  "suggest 5 related questions that would provide additional insights.\n\n" ++
  "Original Question: " ++ original_question ++ "\n\n" ++
  "Results columns: " ++
  (if results.isEmpty then "No results" else String.intercalate ", " results.columns) ++
  "\n\nGenerate questions that:\n1. Explore different aspects of the same topic\n" ++
  "2. Drill down into specific details\n3. Compare different time periods or segments\n" ++
  "4. Identify trends or patterns\n5. Focus on actionable business decisions\n\n" ++
  "Return only the questions, one per line, without numbering."

/-- The fixed fallback list returned by `get_related_questions` when the
external call raises. -/
def fallback_questions : List String :=
  ["What are the top-performing menu items by revenue?",
   "How do customer ratings vary by cuisine type?",
   "What are the peak ordering hours?",
   "Which restaurants have the highest customer retention?",
   "What\x27s the average order value by customer age group?"]

/-- The line parse in `get_related_questions`:
`[q.strip() for q in text.split('\n') if q.strip()]` — split on newlines,
trim each line, and drop the lines that are empty after trimming. -/
def parse_questions (text : List Char) : List (List Char) :=
  ((splitLines text).map strip).filter (fun q => q ≠ [])

/-- Model of `LLMSQLService.get_related_questions`: on success, parse the
stripped response text into lines and return the first 5; on a raised
exception, return the fixed fallback list.  Total by construction — the
Python `try`/`except` catches every exception. -/
def get_related_questions (model : GenModel) (original_question : String)
    (results : Table) : List String :=
  match model (related_prompt original_question results) with
  | Except.ok text => ((parse_questions (strip text.data)).take 5).map String.mk
  | Except.error _ => fallback_questions

/-- Model of `RestaurantAnalytics.process_natural_language_query`: the strict
sequential composition `generate_sql` → `execute_sql` → `generate_insights`,
threading the connection state and propagating any unrecovered failure. -/
def process_natural_language_query (model : GenModel) (db : DbOracle)
    (question : String) (st : ConnState) :
    Except String (String × Table × String) × ConnState :=
  match generate_sql model question with
  | Except.error e => (Except.error e, st)
  | Except.ok sql_query =>
    match execute_sql db sql_query st with
    | (Except.error e, st1) => (Except.error e, st1)
    | (Except.ok results, st1) =>
      (Except.ok (sql_query, results, (generate_insights model question results).1), st1)

/-- The fixed keyword list of `RestaurantAnalytics.validate_query_safety`. -/
def dangerous_keywords : List String :=
  ["drop", "delete", "update", "insert", "alter", "create"]

/-- Model of `RestaurantAnalytics.validate_query_safety`: lower-case the
statement and return `false` exactly when some dangerous keyword occurs in it
as a contiguous substring. -/
def validate_query_safety (sql_query : String) : Bool :=
  let query_lower := sql_query.data.map Char.toLower
  !(dangerous_keywords.any fun kw => decide (kw.data <:+: query_lower))

/-- Appending a character to the last piece of a split, used to relate
`splitLines (l ++ [c])` to `splitLines l` for a non-newline `c`. -/
def snocLast (c : Char) : List (List Char) → List (List Char)
  | [] => [[c]]
  | [h] => [h ++ [c]]
  | h :: t => h :: snocLast c t

/-- A small concrete result table used by the concrete instantiations. -/
def demoTable : Table :=
  { columns := ["name", "revenue"], rows := [["Restaurant A", "1000"]] }

/-! ### Helper lemmas: fence removal -/

theorem subFence_cons_ne (c : Char) (rest : List Char) (h : c ≠ '\x60') :
    subFence (c :: rest) = c :: subFence rest := by
  rw [subFence.eq_def]
  split
  · rename_i heq; injection heq with h1 _; exact absurd h1 h
  · rename_i heq; injection heq with h1 _; exact absurd h1 h
  · rename_i heq; injection heq with h1 h2; rw [h1, h2]
  · rename_i heq; exact absurd heq (by simp)

theorem subFence_cons_tick (rest : List Char)
    (h : ∀ r, rest ≠ '\x60' :: '\x60' :: r) :
    subFence ('\x60' :: rest) = '\x60' :: subFence rest := by
  rw [subFence.eq_def]
  split
  · rename_i heq; injection heq with _ h2; exact absurd h2 (h _)
  · rename_i heq; injection heq with _ h2; exact absurd h2 (h _)
  · rename_i heq; injection heq with h1 h2; rw [h1, h2]
  · rename_i heq; exact absurd heq (by simp)

theorem subFence_fence (rest : List Char) (h : ∀ r, rest ≠ '\n' :: r) :
    subFence ('\x60' :: '\x60' :: '\x60' :: rest) = subFence rest := by
  rw [subFence.eq_def]
  split
  · rename_i heq
    injection heq with _ heq; injection heq with _ heq; injection heq with _ heq
    exact absurd heq (h _)
  · rename_i heq
    injection heq with _ heq; injection heq with _ heq; injection heq with _ heq
    rw [heq]
  · rename_i hne1 hne2 heq
    injection heq with h1 heq
    exact (hne2 rest h1.symm heq.symm).elim
  · rename_i heq; exact absurd heq (by simp)

theorem subFence_head (l : List Char) (h : l.head? ≠ some '\x60') :
    (subFence l).head? = l.head? := by
  cases l with
  | nil => rfl
  | cons c rest =>
    have hc : c ≠ '\x60' := fun hc => h (by rw [hc]; rfl)
    rw [subFence_cons_ne c rest hc]
    rfl

theorem subFence_no_two_ticks (l : List Char) (h : ∀ r, l ≠ '\x60' :: '\x60' :: r) :
    ∀ r, subFence l ≠ '\x60' :: '\x60' :: r := by
  cases l with
  | nil => intro r; simp [subFence]
  | cons c rest =>
    by_cases hc : c = '\x60'
    · subst hc
      have hrest : ∀ r, rest ≠ '\x60' :: r := fun r hr => h r (by rw [hr])
      rw [subFence_cons_tick rest (fun r hr => hrest _ (by rw [hr]))]
      intro r hEq
      injection hEq with _ h2
      have hh : rest.head? ≠ some '\x60' := by
        cases rest with
        | nil => simp
        | cons d ds =>
          simp only [List.head?_cons, ne_eq]
          intro hd
          exact hrest ds (by rw [Option.some.inj hd])
      have hpres := subFence_head rest hh
      rw [h2] at hpres
      exact hh hpres.symm
    · rw [subFence_cons_ne c rest hc]
      intro r hEq
      injection hEq with h1 _
      exact hc h1

theorem subFence_no_fence (l : List Char) : ¬ fence <:+: subFence l := by
  induction l using subFence.induct with
  | case1 rest ih =>
    have : subFence ('\x60' :: '\x60' :: '\x60' :: '\n' :: rest) = subFence rest := rfl
    rw [this]; exact ih
  | case2 rest hne ih =>
    rw [subFence_fence rest (fun r hr => hne r hr)]
    exact ih
  | case3 c rest h1 h2 ih =>
    have hshape : subFence (c :: rest) = c :: subFence rest := by
      by_cases hc : c = '\x60'
      · subst hc
        exact subFence_cons_tick rest (fun r hr => h2 r rfl hr)
      · exact subFence_cons_ne c rest hc
    rw [hshape]
    intro hinf
    rcases List.infix_cons_iff.mp hinf with hpre | hinf2
    · have hfe : fence = '\x60' :: '\x60' :: ['\x60'] := rfl
      rw [hfe] at hpre
      rcases List.cons_prefix_cons.mp hpre with ⟨hc, hpre2⟩
      obtain ⟨r, hr⟩ := hpre2
      have hr' : subFence rest = '\x60' :: '\x60' :: r := by
        simpa using hr.symm
      exact subFence_no_two_ticks rest (fun r0 hr0 => h2 r0 hc.symm hr0) r hr'
    · exact ih hinf2
  | case4 =>
    simp [subFence, fence, List.infix_nil]

theorem infix_of_infix_cons {l t : List Char} {c : Char} (h : l <:+: t) : l <:+: c :: t :=
  List.infix_cons_iff.mpr (Or.inr h)

theorem subFence_eq_self (l : List Char) (h : ¬ fence <:+: l) : subFence l = l := by
  induction l using subFence.induct with
  | case1 rest ih =>
    exact absurd (List.IsPrefix.isInfix ⟨'\n' :: rest, rfl⟩) h
  | case2 rest hne ih =>
    exact absurd (List.IsPrefix.isInfix ⟨rest, rfl⟩) h
  | case3 c rest h1 h2 ih =>
    have hshape : subFence (c :: rest) = c :: subFence rest := by
      by_cases hc : c = '\x60'
      · subst hc
        exact subFence_cons_tick rest (fun r hr => h2 r rfl hr)
      · exact subFence_cons_ne c rest hc
    rw [hshape, ih (fun hr => h (infix_of_infix_cons hr))]
  | case4 => rfl

theorem subSqlFence_cons (c : Char) (rest : List Char)
    (h : ∀ r, c :: rest ≠ '\x60' :: '\x60' :: '\x60' :: 's' :: 'q' :: 'l' :: r) :
    subSqlFence (c :: rest) = c :: subSqlFence rest := by
  rw [subSqlFence.eq_def]
  split
  · rename_i heq; exact absurd heq (h _)
  · rename_i heq; exact absurd heq (h _)
  · rename_i heq; injection heq with h1 h2; rw [h1, h2]
  · rename_i heq; exact absurd heq (by simp)

theorem subSqlFence_eq_self (l : List Char) (h : ¬ fence <:+: l) : subSqlFence l = l := by
  induction l using subSqlFence.induct with
  | case1 rest ih =>
    exact absurd (List.IsPrefix.isInfix ⟨'s' :: 'q' :: 'l' :: '\n' :: rest, rfl⟩) h
  | case2 rest hne ih =>
    exact absurd (List.IsPrefix.isInfix ⟨'s' :: 'q' :: 'l' :: rest, rfl⟩) h
  | case3 c rest h1 h2 ih =>
    have hshape := subSqlFence_cons c rest (by
      intro r hr
      injection hr with hc hrest
      exact h2 r hc hrest)
    rw [hshape, ih (fun hr => h (infix_of_infix_cons hr))]
  | case4 => rfl

/-! ### Helper lemmas: whitespace stripping -/

theorem lstrip_suffix (l : List Char) : lstrip l <:+ l :=
  List.dropWhile_suffix pyWhitespace

theorem rstrip_prefix_self (l : List Char) : rstrip l <+: l := by
  have h : (l.reverse.dropWhile pyWhitespace).reverse <+: l.reverse.reverse :=
    List.IsSuffix.reverse (List.dropWhile_suffix pyWhitespace)
  rwa [List.reverse_reverse] at h

theorem strip_infix_self (l : List Char) : strip l <:+: l :=
  ((lstrip_suffix (rstrip l)).isInfix).trans ((rstrip_prefix_self l).isInfix)

theorem head_dropWhile_not (p : Char → Bool) (l : List Char) {c : Char}
    (h : (l.dropWhile p).head? = some c) : p c = false := by
  induction l with
  | nil => simp at h
  | cons a l ih =>
    by_cases ha : p a
    · rw [List.dropWhile_cons_of_pos ha] at h
      exact ih h
    · rw [List.dropWhile_cons_of_neg ha] at h
      simp only [List.head?_cons, Option.some.injEq] at h
      rw [← h]
      exact Bool.eq_false_iff.mpr ha

theorem head_lstrip_not (l : List Char) {c : Char}
    (h : (lstrip l).head? = some c) : pyWhitespace c = false :=
  head_dropWhile_not pyWhitespace l h

theorem getLast_rstrip_not (l : List Char) {c : Char}
    (h : (rstrip l).getLast? = some c) : pyWhitespace c = false := by
  have h2 : (l.reverse.dropWhile pyWhitespace).head? = some c := by
    rw [← List.getLast?_reverse]
    exact h
  exact head_dropWhile_not pyWhitespace l.reverse h2

theorem lstrip_cons_of_neg {c : Char} (l : List Char) (h : pyWhitespace c = false) :
    lstrip (c :: l) = c :: l := by
  unfold lstrip
  rw [List.dropWhile_cons_of_neg (by simp [h])]

theorem lstrip_idem (l : List Char) : lstrip (lstrip l) = lstrip l := by
  cases hl : lstrip l with
  | nil => rfl
  | cons c rest =>
    have hc : pyWhitespace c = false := head_lstrip_not l (by rw [hl]; rfl)
    exact lstrip_cons_of_neg rest hc

theorem rstrip_no_op {l : List Char} {c : Char} (h : l.getLast? = some c)
    (hc : pyWhitespace c = false) : rstrip l = l := by
  cases hr : l.reverse with
  | nil =>
    have : l = [] := by simpa using congrArg List.reverse hr
    simp [this, rstrip]
  | cons d rest =>
    have hd : d = c := by
      have h1 : l.reverse.head? = some c := by rw [List.head?_reverse]; exact h
      rw [hr] at h1
      exact Option.some.inj h1
    unfold rstrip
    rw [hr, List.dropWhile_cons_of_neg (by simp [hd, hc]), ← hr, List.reverse_reverse]

theorem getLast?_of_suffix {l₁ l₂ : List Char} (h : l₁ <:+ l₂) (hne : l₁ ≠ []) :
    l₂.getLast? = l₁.getLast? := by
  obtain ⟨t, rfl⟩ := h
  exact List.getLast?_append_of_ne_nil t hne

theorem strip_idem (l : List Char) : strip (strip l) = strip l := by
  unfold strip
  cases hm : lstrip (rstrip l) with
  | nil => simp [rstrip, lstrip]
  | cons c rest =>
    have hlast : (lstrip (rstrip l)).getLast? = (rstrip l).getLast? :=
      (getLast?_of_suffix (lstrip_suffix (rstrip l)) (by rw [hm]; simp)).symm
    have hlast2 : ∃ d, (lstrip (rstrip l)).getLast? = some d := by
      rw [hm]
      exact ⟨(c :: rest).getLast (by simp), List.getLast?_eq_getLast_of_ne_nil (by simp)⟩
    obtain ⟨d, hd⟩ := hlast2
    have hdw : pyWhitespace d = false := by
      apply getLast_rstrip_not l
      rw [← hlast]
      exact hd
    rw [← hm, rstrip_no_op hd hdw, lstrip_idem]

theorem strip_cons_ws {c : Char} (l : List Char) (h : pyWhitespace c = true) :
    strip (c :: l) = strip l := by
  unfold strip rstrip
  rw [List.reverse_cons, List.dropWhile_append]
  by_cases he : (l.reverse.dropWhile pyWhitespace).isEmpty
  · rw [if_pos he]
    have h1 : l.reverse.dropWhile pyWhitespace = [] := by
      simpa [List.isEmpty_iff] using he
    rw [h1]
    simp [List.dropWhile_cons, h, lstrip]
  · rw [if_neg he, List.reverse_append]
    simp only [List.reverse_cons, List.reverse_nil, List.nil_append, List.singleton_append]
    unfold lstrip
    rw [List.dropWhile_cons_of_pos (by simp [h])]

theorem rstrip_concat_ws {c : Char} (l : List Char) (h : pyWhitespace c = true) :
    rstrip (l ++ [c]) = rstrip l := by
  unfold rstrip
  rw [List.reverse_append]
  simp only [List.reverse_cons, List.reverse_nil, List.nil_append, List.singleton_append]
  rw [List.dropWhile_cons_of_pos (by simp [h])]

theorem strip_concat_ws {c : Char} (l : List Char) (h : pyWhitespace c = true) :
    strip (l ++ [c]) = strip l := by
  unfold strip
  rw [rstrip_concat_ws l h]

theorem strip_nil : strip [] = [] := rfl

/-! ### Helper lemmas: the sanitizer -/

theorem pyWhitespace_semi : pyWhitespace ';' = false := by decide

theorem strip_concat_semi (x : List Char) :
    strip (strip x ++ [';']) = strip x ++ [';'] := by
  unfold strip
  rw [rstrip_no_op (List.getLast?_concat _) pyWhitespace_semi]
  cases hx : lstrip (rstrip x) with
  | nil => exact lstrip_cons_of_neg [] pyWhitespace_semi
  | cons c rest =>
    have hc : pyWhitespace c = false := head_lstrip_not (rstrip x) (by rw [hx]; rfl)
    rw [List.cons_append]
    exact lstrip_cons_of_neg _ hc

theorem clean_getLast (l : List Char) : (clean_sql_query l).getLast? = some ';' := by
  unfold clean_sql_query
  by_cases h : (strip (subFence (subSqlFence l))).getLast? = some ';'
  · rw [if_pos h]; exact h
  · rw [if_neg h]; exact List.getLast?_concat _

theorem fence_infix_concat_semi {l : List Char} (h : fence <:+: l ++ [';']) :
    fence <:+: l := by
  have h1 := h.reverse
  rw [List.reverse_append] at h1
  simp only [List.reverse_cons, List.reverse_nil, List.nil_append,
    List.singleton_append] at h1
  have hf : fence.reverse = fence := rfl
  rw [hf] at h1
  rcases List.infix_cons_iff.mp h1 with hpre | hinf
  · have : ('\x60' : Char) = ';' := (List.cons_prefix_cons.mp hpre).1
    simp at this
  · have h2 := hinf.reverse
    rwa [hf, List.reverse_reverse] at h2

theorem clean_no_fence (l : List Char) : ¬ fence <:+: clean_sql_query l := by
  unfold clean_sql_query
  have hbase : ¬ fence <:+: strip (subFence (subSqlFence l)) := fun hf =>
    subFence_no_fence (subSqlFence l) (hf.trans (strip_infix_self _))
  by_cases h : (strip (subFence (subSqlFence l))).getLast? = some ';'
  · rw [if_pos h]; exact hbase
  · rw [if_neg h]
    exact fun hf => hbase (fence_infix_concat_semi hf)

theorem clean_stripped (l : List Char) :
    strip (clean_sql_query l) = clean_sql_query l := by
  unfold clean_sql_query
  by_cases h : (strip (subFence (subSqlFence l))).getLast? = some ';'
  · rw [if_pos h]; exact strip_idem _
  · rw [if_neg h]; exact strip_concat_semi _

theorem clean_no_dup (l : List Char)
    (h : (strip (subFence (subSqlFence l))).getLast? = some ';') :
    clean_sql_query l = strip (subFence (subSqlFence l)) := by
  unfold clean_sql_query
  rw [if_pos h]

/-! ### Helper lemmas: line splitting and the question parse -/

theorem splitLines_ne_nil (l : List Char) : ∃ h t, splitLines l = h :: t := by
  cases l with
  | nil => exact ⟨[], [], rfl⟩
  | cons c rest =>
    by_cases hc : c = '\n'
    · exact ⟨[], splitLines rest, by simp [splitLines, hc]⟩
    · obtain ⟨h, t, ht⟩ : ∃ h t, splitLines rest = h :: t := by
        cases hr : splitLines rest with
        | nil =>
          exfalso
          revert hr
          induction rest with
          | nil => simp [splitLines]
          | cons d ds ih =>
            simp only [splitLines]
            by_cases hd : d = '\n'
            · simp [hd]
            · rw [if_neg hd]
              cases hds : splitLines ds with
              | nil => exact fun _ => ih hds
              | cons x xs => simp [consHead]
        | cons x xs => exact ⟨x, xs, rfl⟩
      exact ⟨c :: h, t, by simp [splitLines, hc, ht, consHead]⟩

theorem splitLines_nl (c : Char) (rest : List Char) (hc : c = '\n') :
    splitLines (c :: rest) = [] :: splitLines rest := by
  simp [splitLines, hc]

theorem splitLines_cons (c : Char) (rest : List Char) (hc : c ≠ '\n') :
    splitLines (c :: rest) = consHead c (splitLines rest) := by
  simp [splitLines, hc]

theorem parse_cons_ws {c : Char} (t : List Char) (hw : pyWhitespace c = true) :
    parse_questions (c :: t) = parse_questions t := by
  by_cases hc : c = '\n'
  · unfold parse_questions
    rw [splitLines_nl c t hc]
    simp [strip, lstrip, rstrip]
  · unfold parse_questions
    rw [splitLines_cons c t hc]
    obtain ⟨h, tl, ht⟩ := splitLines_ne_nil t
    rw [ht]
    simp only [consHead, List.map_cons, List.filter_cons]
    rw [strip_cons_ws h hw]

theorem parse_lstrip (t : List Char) : parse_questions (lstrip t) = parse_questions t := by
  induction t with
  | nil => rfl
  | cons c rest ih =>
    by_cases hw : pyWhitespace c
    · rw [show lstrip (c :: rest) = lstrip rest from by
        unfold lstrip; exact List.dropWhile_cons_of_pos (by simp [hw])]
      rw [ih, parse_cons_ws rest hw]
    · rw [show lstrip (c :: rest) = c :: rest from by
        unfold lstrip; exact List.dropWhile_cons_of_neg (by simp [hw])]

theorem consHead_append (c : Char) (S T : List (List Char)) (h : S ≠ []) :
    consHead c (S ++ T) = consHead c S ++ T := by
  cases S with
  | nil => exact absurd rfl h
  | cons s ss => simp [consHead]

theorem splitLines_concat_nl (xs : List Char) :
    splitLines (xs ++ ['\n']) = splitLines xs ++ [[]] := by
  induction xs with
  | nil => simp [splitLines]
  | cons x xs ih =>
    by_cases hx : x = '\n'
    · rw [List.cons_append, splitLines_nl x _ hx, splitLines_nl x xs hx, ih]
      rfl
    · rw [List.cons_append, splitLines_cons x _ hx, splitLines_cons x xs hx, ih]
      obtain ⟨h, t, ht⟩ := splitLines_ne_nil xs
      rw [ht, consHead_append x (h :: t) [[]] (by simp)]

theorem consHead_snocLast (x c : Char) (S : List (List Char)) (h : S ≠ []) :
    consHead x (snocLast c S) = snocLast c (consHead x S) := by
  cases S with
  | nil => exact absurd rfl h
  | cons s ss =>
    cases ss with
    | nil => simp [snocLast, consHead]
    | cons s2 ss2 => simp [snocLast, consHead]

theorem splitLines_concat (xs : List Char) (c : Char) (hc : c ≠ '\n') :
    splitLines (xs ++ [c]) = snocLast c (splitLines xs) := by
  induction xs with
  | nil => simp [splitLines, hc, consHead, snocLast]
  | cons x xs ih =>
    by_cases hx : x = '\n'
    · rw [List.cons_append, splitLines_nl x _ hx, splitLines_nl x xs hx, ih]
      obtain ⟨h, t, ht⟩ := splitLines_ne_nil xs
      rw [ht]
      rfl
    · rw [List.cons_append, splitLines_cons x _ hx, splitLines_cons x xs hx, ih]
      obtain ⟨h, t, ht⟩ := splitLines_ne_nil xs
      rw [ht, consHead_snocLast x c (h :: t) (by simp)]

theorem map_strip_snocLast {c : Char} (hw : pyWhitespace c = true) (h : List Char)
    (t : List (List Char)) :
    (snocLast c (h :: t)).map strip = (h :: t).map strip := by
  induction t generalizing h with
  | nil => simp [snocLast, strip_concat_ws h hw]
  | cons h2 t2 ih =>
    have : snocLast c (h :: h2 :: t2) = h :: snocLast c (h2 :: t2) := rfl
    rw [this, List.map_cons, List.map_cons, ih h2]

theorem parse_concat_ws {c : Char} (xs : List Char) (hw : pyWhitespace c = true) :
    parse_questions (xs ++ [c]) = parse_questions xs := by
  by_cases hc : c = '\n'
  · unfold parse_questions
    rw [hc] at *
    rw [splitLines_concat_nl xs]
    simp [strip, lstrip, rstrip, List.filter_append]
  · unfold parse_questions
    rw [splitLines_concat xs c hc]
    obtain ⟨h, t, ht⟩ := splitLines_ne_nil xs
    rw [ht, map_strip_snocLast hw h t]

theorem parse_rstrip (t : List Char) : parse_questions (rstrip t) = parse_questions t := by
  induction t using List.reverseRecOn with
  | nil => rfl
  | append_singleton xs c ih =>
    by_cases hw : pyWhitespace c
    · rw [rstrip_concat_ws xs hw, ih, parse_concat_ws xs hw]
    · rw [rstrip_no_op (List.getLast?_concat xs) (Bool.eq_false_iff.mpr hw)]

theorem parse_strip (t : List Char) : parse_questions (strip t) = parse_questions t := by
  unfold strip
  rw [parse_lstrip, parse_rstrip]

/-! ### Sanity checks on concrete inputs (mirroring tests/test_llm_service.py) -/

example : clean_sql_query ("\x60\x60\x60sql\nSELECT * FROM restaurants;\n\x60\x60\x60").data
    = ("SELECT * FROM restaurants;").data := by decide
example : clean_sql_query ("SELECT * FROM restaurants").data
    = ("SELECT * FROM restaurants;").data := by decide
example : clean_sql_query ("  SELECT * FROM restaurants;  ").data
    = ("SELECT * FROM restaurants;").data := by decide
example : (splitLines ("a\n\nb c\n").data).map String.mk = ["a", "", "b c", ""] := by decide
example : validate_query_safety "SELECT * FROM restaurants LIMIT 5;" = true := by decide
example : validate_query_safety "DrOp TABLE restaurants;" = false := by decide

/-! ### The claims -/

/-- Claim C1, counterexample: on a model response already ending in two
semicolons, `_clean_sql_query` returns it unchanged, so the returned statement
ends in `;;` — not "exactly one trailing semicolon" as the claim states. -/
theorem c1_counterexample :
    clean_sql_query ("SELECT 1;;").data = ("SELECT 1;;").data ∧
    (clean_sql_query ("SELECT 1;;").data).reverse.take 2 = [';', ';'] := by
  constructor
  · decide
  · decide

/-- Claim C1, amended: `_clean_sql_query` removes all fenced-code delimiters
(no three-backtick run survives), trims surrounding whitespace, and returns a
statement ending with at least one trailing semicolon, appending one only if
none is present: when the de-fenced trimmed text already ends with a
semicolon it is returned unchanged, so no duplicate terminator is added
(but a terminator already duplicated by the model is kept as supplied). -/
theorem c1_clean_sql_query_sanitizes (s : List Char) :
    (clean_sql_query s).getLast? = some ';' ∧
    ¬ fence <:+: clean_sql_query s ∧
    strip (clean_sql_query s) = clean_sql_query s ∧
    ((strip (subFence (subSqlFence s))).getLast? = some ';' →
      clean_sql_query s = strip (subFence (subSqlFence s))) :=
  ⟨clean_getLast s, clean_no_fence s, clean_stripped s, clean_no_dup s⟩

/-- Witness for C1 at a concrete fenced response. -/
theorem c1_clean_sql_query_sanitizes_witness :
    (clean_sql_query ("\x60\x60\x60sql\nSELECT 1;\n\x60\x60\x60").data).getLast? = some ';' ∧
    ¬ fence <:+: clean_sql_query ("\x60\x60\x60sql\nSELECT 1;\n\x60\x60\x60").data ∧
    strip (clean_sql_query ("\x60\x60\x60sql\nSELECT 1;\n\x60\x60\x60").data)
      = clean_sql_query ("\x60\x60\x60sql\nSELECT 1;\n\x60\x60\x60").data ∧
    clean_sql_query ("\x60\x60\x60sql\nSELECT 1;\n\x60\x60\x60").data
      = strip (subFence (subSqlFence ("\x60\x60\x60sql\nSELECT 1;\n\x60\x60\x60").data)) := by
  obtain ⟨h1, h2, h3, h4⟩ :=
    c1_clean_sql_query_sanitizes ("\x60\x60\x60sql\nSELECT 1;\n\x60\x60\x60").data
  exact ⟨h1, h2, h3, h4 (by decide)⟩

/-- Claim C2: `execute_sql` opens exactly one connection; it is released on
the success path, but on the error path the `except` clause re-raises without
closing it — the connection count stays at `openConns + 1`, exhibiting the
leak the claim rules out. -/
theorem c2_execute_sql_connections (db : DbOracle) (q : String) (st : ConnState) :
    (∀ t, db q = Except.ok t → (execute_sql db q st).2 = st) ∧
    (∀ e, db q = Except.error e →
      (execute_sql db q st).2.openConns = st.openConns + 1 ∧
      (execute_sql db q st).1 = Except.error ("Error executing SQL: " ++ e)) := by
  obtain ⟨n⟩ := st
  constructor
  · intro t ht
    simp [execute_sql, ht]
  · intro e he
    refine ⟨?_, ?_⟩ <;> simp [execute_sql, he]

/-- Witness for C2: a store that raises on a misspelled table name leaves the
connection open; a succeeding store does not. -/
theorem c2_execute_sql_connections_witness :
    (execute_sql (fun _ => Except.ok demoTable) "SELECT name FROM restaurants;" ⟨0⟩).2 = ⟨0⟩ ∧
    (execute_sql (fun _ => Except.error "no such table: restarants")
      "SELECT * FROM restarants;" ⟨0⟩).2.openConns = 0 + 1 ∧
    (execute_sql (fun _ => Except.error "no such table: restarants")
      "SELECT * FROM restarants;" ⟨0⟩).1
      = Except.error ("Error executing SQL: " ++ "no such table: restarants") := by
  obtain ⟨ha, hb⟩ :=
    (c2_execute_sql_connections (fun _ => Except.error "no such table: restarants")
      "SELECT * FROM restarants;" ⟨0⟩).2 "no such table: restarants" rfl
  exact ⟨(c2_execute_sql_connections (fun _ => Except.ok demoTable)
    "SELECT name FROM restaurants;" ⟨0⟩).1 demoTable rfl, ha, hb⟩

/-- Claim C3: `process_natural_language_query` is the strict composition
generate → execute → insights returning the triple; a failure of generation
or execution propagates and aborts the call; and the safety gate is not on
this path: a statement with `validate_query_safety` false is still executed
and its result returned. -/
theorem c3_process_pipeline (model : GenModel) (db : DbOracle) (q : String) (st : ConnState) :
    (∀ e, generate_sql model q = Except.error e →
      process_natural_language_query model db q st = (Except.error e, st)) ∧
    (∀ sql e, generate_sql model q = Except.ok sql → db sql = Except.error e →
      process_natural_language_query model db q st =
        (Except.error ("Error executing SQL: " ++ e), ⟨st.openConns + 1⟩)) ∧
    (∀ sql t, generate_sql model q = Except.ok sql → db sql = Except.ok t →
      process_natural_language_query model db q st =
        (Except.ok (sql, t, (generate_insights model q t).1), st)) ∧
    (∀ sql t, generate_sql model q = Except.ok sql → validate_query_safety sql = false →
      db sql = Except.ok t →
      process_natural_language_query model db q st =
        (Except.ok (sql, t, (generate_insights model q t).1), st)) := by
  obtain ⟨n⟩ := st
  refine ⟨?_, ?_, ?_, ?_⟩
  · intro e he
    simp only [process_natural_language_query, he]
  · intro sql e hg hd
    simp only [process_natural_language_query, execute_sql, hg, hd]
  · intro sql t hg hd
    simp [process_natural_language_query, execute_sql, hg, hd]
  · intro sql t hg _ hd
    simp [process_natural_language_query, execute_sql, hg, hd]

/-- Witness for C3: the model emits a mutating statement; the safety gate
flags it, yet the pipeline executes it and returns the triple. -/
theorem c3_process_pipeline_witness :
    process_natural_language_query (fun _ => Except.ok "DROP TABLE restaurants")
        (fun _ => Except.ok demoTable) "Remove the restaurants table" ⟨0⟩ =
      (Except.ok ("DROP TABLE restaurants;", demoTable,
        (generate_insights (fun _ => Except.ok "DROP TABLE restaurants")
          "Remove the restaurants table" demoTable).1), ⟨0⟩) ∧
    validate_query_safety "DROP TABLE restaurants;" = false := by
  refine ⟨?_, by decide⟩
  exact (c3_process_pipeline (fun _ => Except.ok "DROP TABLE restaurants")
    (fun _ => Except.ok demoTable) "Remove the restaurants table" ⟨0⟩).2.2.2
    "DROP TABLE restaurants;" demoTable rfl (by decide) rfl

/-- Claim C4, counterexample: when the external call succeeds with a response
containing no non-empty line (here the empty string), `get_related_questions`
returns the empty list — not a non-empty list as the claim states. -/
theorem c4_counterexample :
    get_related_questions (fun _ => Except.ok "") "What are the peak hours?" demoTable
      = [] := by
  rfl

/-- Claim C4, amended: `get_related_questions` is total (the `try`/`except`
catches every exception) and always returns at most 5 strings; when the
external call raises it returns exactly the fixed fallback list of 5 literal
questions.  On a success whose response has no non-empty line the result may
be empty, so the unconditional non-emptiness the claim states does not hold. -/
theorem c4_get_related_questions_bounded (model : GenModel) (q : String) (t : Table) :
    (get_related_questions model q t).length ≤ 5 ∧
    (∀ e, model (related_prompt q t) = Except.error e →
      get_related_questions model q t = fallback_questions) ∧
    fallback_questions.length = 5 := by
  refine ⟨?_, ?_, rfl⟩
  · unfold get_related_questions
    cases h : model (related_prompt q t) with
    | ok text =>
      rw [List.length_map]
      exact List.length_take_le 5 _
    | error e => exact Nat.le_refl 5
  · intro e he
    unfold get_related_questions
    rw [he]

/-- Witness for C4 with a raising external call. -/
theorem c4_get_related_questions_bounded_witness :
    (get_related_questions (fun _ => Except.error "API Error") "test question"
      demoTable).length ≤ 5 ∧
    get_related_questions (fun _ => Except.error "API Error") "test question" demoTable
      = fallback_questions := by
  obtain ⟨h1, h2, _⟩ :=
    c4_get_related_questions_bounded (fun _ => Except.error "API Error") "test question"
      demoTable
  exact ⟨h1, h2 "API Error" rfl⟩

/-- Claim C5: on a result table with zero rows, `generate_insights` returns
the fixed literal and performs no external model call (the invocation count
is 0: the `results.empty` check precedes the `generate_content` call). -/
theorem c5_generate_insights_empty (model : GenModel) (q : String) (t : Table)
    (h : t.rows = []) :
    generate_insights model q t = ("No data found for the given query.", 0) := by
  have he : t.isEmpty = true := by simp [Table.isEmpty, h]
  simp [generate_insights, he]

/-- Witness for C5 on a concrete zero-row table; the model oracle would
answer, but is never consulted. -/
theorem c5_generate_insights_empty_witness :
    generate_insights (fun _ => Except.ok "Great insight") "Which items sell best?"
      { columns := ["name"], rows := [] } = ("No data found for the given query.", 0) :=
  c5_generate_insights_empty (fun _ => Except.ok "Great insight")
    "Which items sell best?" { columns := ["name"], rows := [] } rfl

/-- Claim C6: `validate_query_safety` returns false exactly when the
lower-cased statement contains one of the six keywords as a substring; hence
it is case-insensitive, accepts keyword-free read-only statements, and flags
a keyword occurring only inside a string literal (documented false
positive). -/
theorem c6_validate_query_safety_iff (q : String) :
    (validate_query_safety q = false ↔
      ∃ kw ∈ dangerous_keywords, kw.data <:+: q.data.map Char.toLower) ∧
    validate_query_safety "SELECT name FROM restaurants LIMIT 5;" = true ∧
    validate_query_safety "DeLeTe FROM orders WHERE id = 3;" = false ∧
    validate_query_safety "SELECT * FROM reviews WHERE review_text = \x27please update me\x27;"
      = false := by
  refine ⟨?_, by decide, by decide, by decide⟩
  unfold validate_query_safety
  simp [List.any_eq_true]

/-- Claim C7: on a non-empty result table, a failure of the external
narration call is swallowed: `generate_insights` returns the literal error
string embedding the failure message (and made exactly the one failed call)
instead of propagating the exception. -/
theorem c7_generate_insights_soft_fail (model : GenModel) (q : String) (t : Table)
    (e : String) (hne : t.isEmpty = false)
    (herr : model (insight_prompt q t) = Except.error e) :
    generate_insights model q t = ("Error generating insights: " ++ e, 1) := by
  unfold generate_insights
  rw [if_neg (by simp [hne]), herr]

/-- Witness for C7 on a concrete table and a raising model. -/
theorem c7_generate_insights_soft_fail_witness :
    generate_insights (fun _ => Except.error "429 quota exceeded")
      "What are the top restaurants by revenue?" demoTable
      = ("Error generating insights: " ++ "429 quota exceeded", 1) :=
  c7_generate_insights_soft_fail (fun _ => Except.error "429 quota exceeded")
    "What are the top restaurants by revenue?" demoTable "429 quota exceeded"
    (by decide) rfl

/-- Claim C8: on a successful external call, `get_related_questions` returns
exactly the first at-most-5 lines of the raw response that are non-empty
after whitespace trimming, each trimmed, in response order (the pre-strip of
the whole response the code performs does not change this set). -/
theorem c8_get_related_questions_parse (model : GenModel) (q : String) (t : Table)
    (text : String) (h : model (related_prompt q t) = Except.ok text) :
    get_related_questions model q t = ((parse_questions text.data).take 5).map String.mk := by
  simp only [get_related_questions, h]
  rw [parse_strip]

/-- Witness for C8 on a concrete multi-line response with blank and padded
lines. -/
theorem c8_get_related_questions_parse_witness :
    get_related_questions
      (fun _ => Except.ok "  \nWhat are the peak hours?\n\n  Which cuisine earns most?  \nHow many repeat customers?\nWhat is the mean basket?\nWhich branch grew fastest?\nWhich item flopped?\n")
      "q" demoTable
      = ((parse_questions ("  \nWhat are the peak hours?\n\n  Which cuisine earns most?  \nHow many repeat customers?\nWhat is the mean basket?\nWhich branch grew fastest?\nWhich item flopped?\n" : String).data).take 5).map String.mk := by
  exact c8_get_related_questions_parse _ "q" demoTable _ rfl

/-- Claim C9: sanitization is idempotent on an already-clean statement — one
with no fenced-code delimiter and a trailing semicolon. -/
theorem c9_clean_idempotent (s : List Char) (hf : ¬ fence <:+: s)
    (hs : s.getLast? = some ';') :
    clean_sql_query (clean_sql_query s) = clean_sql_query s := by
  have h1 : subSqlFence s = s := subSqlFence_eq_self s hf
  have h2 : subFence s = s := subFence_eq_self s hf
  have hmem : (';' : Char) ∈ s := by
    have hm : ';' ∈ s.getLast? := hs
    obtain ⟨hne, heq⟩ := List.mem_getLast?_eq_getLast hm
    rw [heq]
    exact List.getLast_mem hne
  have hrs : rstrip s = s := rstrip_no_op hs pyWhitespace_semi
  have hlne : lstrip s ≠ [] := by
    intro hnil
    have hall := List.dropWhile_eq_nil_iff.mp hnil ';' hmem
    rw [pyWhitespace_semi] at hall
    exact Bool.false_ne_true hall
  have hllast : (lstrip s).getLast? = some ';' := by
    rw [← getLast?_of_suffix (lstrip_suffix s) hlne]
    exact hs
  have hstrip : strip s = lstrip s := by unfold strip; rw [hrs]
  have hclean : clean_sql_query s = lstrip s := by
    simp only [clean_sql_query]
    rw [h1, h2, hstrip, if_pos hllast]
  rw [hclean]
  have hf2 : ¬ fence <:+: lstrip s := fun hx => hf (hx.trans (lstrip_suffix s).isInfix)
  have h1' : subSqlFence (lstrip s) = lstrip s := subSqlFence_eq_self _ hf2
  have h2' : subFence (lstrip s) = lstrip s := subFence_eq_self _ hf2
  have hrs' : rstrip (lstrip s) = lstrip s := rstrip_no_op hllast pyWhitespace_semi
  have hstrip' : strip (lstrip s) = lstrip s := by
    unfold strip
    rw [hrs', lstrip_idem]
  simp only [clean_sql_query]
  rw [h1', h2', hstrip', if_pos hllast]

/-- Witness for C9 on a concrete clean statement. -/
theorem c9_clean_idempotent_witness :
    clean_sql_query (clean_sql_query ("SELECT * FROM restaurants;").data)
      = clean_sql_query ("SELECT * FROM restaurants;").data :=
  c9_clean_idempotent ("SELECT * FROM restaurants;").data (by decide) (by decide)

/-- Claim C10: sanitization is total and always yields a semicolon-terminated
statement; an all-whitespace (in particular empty) model response sanitizes
to the bare one-character statement ";", which `generate_sql` then returns,
handing the executor a statement containing no SQL at all. -/
theorem c10_clean_total (s : String) :
    (clean_sql_query s.data).getLast? = some ';' ∧
    ((∀ c ∈ s.data, pyWhitespace c = true) → clean_sql_query s.data = [';']) ∧
    (∀ (model : GenModel) (q : String), model (create_sql_prompt q) = Except.ok s →
      (∀ c ∈ s.data, pyWhitespace c = true) →
      generate_sql model q = Except.ok ";") := by
  have hws : (∀ c ∈ s.data, pyWhitespace c = true) → strip s.data = [] := by
    intro hall
    have : ∀ c ∈ rstrip s.data, pyWhitespace c = true := fun c hc =>
      hall c ((rstrip_prefix_self s.data).sublist.subset hc)
    exact List.dropWhile_eq_nil_iff.mpr this
  have hfence : (∀ c ∈ s.data, pyWhitespace c = true) → ¬ fence <:+: s.data := by
    intro hall hf
    have hmem : ('\x60' : Char) ∈ s.data := hf.sublist.subset (by simp [fence])
    have := hall _ hmem
    simp [pyWhitespace] at this
  have hclean : (∀ c ∈ s.data, pyWhitespace c = true) → clean_sql_query s.data = [';'] := by
    intro hall
    simp only [clean_sql_query]
    rw [subSqlFence_eq_self _ (hfence hall), subFence_eq_self _ (hfence hall), hws hall]
    simp
  refine ⟨clean_getLast s.data, hclean, ?_⟩
  intro model q hm hall
  simp only [generate_sql, hm]
  rw [hws hall]
  rfl

/-- Witness for C10 on a whitespace-only model response. -/
theorem c10_clean_total_witness :
    clean_sql_query (" \n\t ").data = [';'] ∧
    generate_sql (fun _ => Except.ok " \n\t ") "Show everything" = Except.ok ";" := by
  obtain ⟨h1, h2, h3⟩ := c10_clean_total " \n\t "
  exact ⟨h2 (by decide), h3 (fun _ => Except.ok " \n\t ") "Show everything" rfl (by decide)⟩
